import Mathlib

/-!
Verification of the resolution-tracker storage core and derived metrics
(`resolutions/models.py`, `resolutions/storage.py`, the metric helpers of
`resolutions/app.py`, and the fallback logic of `resolutions/ai.py` and
`resolutions/cli.py`).

The Python source keeps a single JSON document (`DataStore`) on disk together
with an in-process cache; every storage operation loads the document, mutates
the cached object, and (usually) saves it back.  We embed the document and
each operation as pure Lean functions: an operation returns its Python return
value together with the in-memory document as subsequent calls in the same
process observe it, plus a flag recording whether `save_data` was invoked
(persistence to disk).  Timestamps are embedded as integers (an epoch
instant); calendar dates are obtained by flooring to whole days, mirroring
`datetime.date()`.  Rationals stand in for Python floats.
-/

namespace Resolutions

/-- Embeds `models.Goal` (a pydantic model).  The `priority` field carries the
constraint `ge=1, le=10`, enforced at construction (`mkGoal`) and on
`model_validate` (`decodeGoal`), but not by `model_copy`. -/
structure Goal where
  id : Int
  title : String
  category : String
  target : String
  created_at : Int
  priority : Int
  emoji : String
  deriving DecidableEq

/-- Embeds `models.LogEntry`.  No field carries a pydantic constraint. -/
structure LogEntry where
  id : Int
  goal_id : Int
  raw_input : String
  parsed_update : String
  value : Option ℚ
  unit : String
  timestamp : Int
  sentiment : String
  deriving DecidableEq

/-- Embeds `models.Config`. -/
structure Config where
  reminder_frequency : String
  preferred_time : String
  ai_personality : String
  deriving DecidableEq

/-- Default `Config()`. -/
def Config.defaults : Config := ⟨"daily", "09:00", "balanced"⟩

/-- Embeds `models.DataStore`, the root document of the JSON file. -/
structure DataStore where
  goals : List Goal
  logs : List LogEntry
  config : Config
  next_goal_id : Int
  next_log_id : Int
  deriving DecidableEq

/-- Fresh `DataStore()` returned by `load_data` when no file exists. -/
def DataStore.fresh : DataStore := ⟨[], [], Config.defaults, 1, 1⟩

/-- Pydantic construction `Goal(...)`: validation of the `priority` bound
`ge=1, le=10`; `none` models the raised `ValidationError`. -/
def mkGoal (id : Int) (title category target : String) (created_at : Int)
    (priority : Int) (emoji : String) : Option Goal :=
  if 1 ≤ priority ∧ priority ≤ 10 then
    some ⟨id, title, category, target, created_at, priority, emoji⟩
  else none

/-- Arguments of one `add_goal` call; `created` models the `datetime.now()`
default taken at the moment of the call. -/
structure GoalArgs where
  title : String
  category : String
  target : String
  priority : Int
  emoji : String
  created : Int
  deriving DecidableEq

/-- Embeds `storage.add_goal`: construct the goal with `id = next_goal_id`,
append it, bump the counter, save.  Pydantic raises on an out-of-range
`priority` (modelled as `.error ()`), in which case nothing is stored. -/
def add_goal (a : GoalArgs) (s : DataStore) : Except Unit (Goal × DataStore) :=
  match mkGoal s.next_goal_id a.title a.category a.target a.created a.priority a.emoji with
  | none => .error ()
  | some g =>
    .ok (g, { s with goals := s.goals ++ [g], next_goal_id := s.next_goal_id + 1 })

/-- A sequence of `add_goal` calls; a validation error aborts the sequence
(the Python exception propagates to the caller).  Returns the list of ids
assigned to the successfully created goals, and the final document. -/
def add_goals : List GoalArgs → DataStore → List Int × DataStore
  | [], s => ([], s)
  | a :: rest, s =>
    match add_goal a s with
    | .error _ => ([], s)
    | .ok (g, s') => (g.id :: (add_goals rest s').1, (add_goals rest s').2)

/-- One `update_goal(goal_id, **kwargs)` keyword set: Python's `**kwargs` can
name any of the model's fields; `model_copy(update=...)` replaces exactly the
supplied ones, performing no validation. -/
structure GoalPatch where
  id : Option Int
  title : Option String
  category : Option String
  target : Option String
  created_at : Option Int
  priority : Option Int
  emoji : Option String

/-- The everything-absent patch. -/
def GoalPatch.empty : GoalPatch := ⟨none, none, none, none, none, none, none⟩

/-- Embeds `goal.model_copy(update=kwargs)`. -/
def modelCopy (g : Goal) (p : GoalPatch) : Goal :=
  { id := p.id.getD g.id
    title := p.title.getD g.title
    category := p.category.getD g.category
    target := p.target.getD g.target
    created_at := p.created_at.getD g.created_at
    priority := p.priority.getD g.priority
    emoji := p.emoji.getD g.emoji }

/-- The loop of `storage.update_goal`: replace the first goal whose id
matches, returning the copy and the rewritten list. -/
def updateGoalList : List Goal → Int → GoalPatch → Option Goal × List Goal
  | [], _, _ => (none, [])
  | g :: gs, gid, p =>
    if g.id = gid then
      (some (modelCopy g p), modelCopy g p :: gs)
    else
      ((updateGoalList gs gid p).1, g :: (updateGoalList gs gid p).2)

/-- Embeds `storage.update_goal`: the returned goal (or `none`), the
in-memory document afterwards, and whether `save_data` ran. -/
def update_goal (gid : Int) (p : GoalPatch) (s : DataStore) :
    Option Goal × DataStore × Bool :=
  ((updateGoalList s.goals gid p).1,
   { s with goals := (updateGoalList s.goals gid p).2 },
   (updateGoalList s.goals gid p).1.isSome)

/-- Embeds `storage.remove_goal`: both filters run unconditionally on the
in-memory document (the log filter runs before the length check); the file is
saved and `True` returned exactly when the goal list shrank. -/
def remove_goal (gid : Int) (s : DataStore) : Bool × DataStore × Bool :=
  let goals' := s.goals.filter (fun g => ¬ g.id = gid)
  let logs' := s.logs.filter (fun l => ¬ l.goal_id = gid)
  let found := decide (goals'.length < s.goals.length)
  (found, { s with goals := goals', logs := logs' }, found)

/-- Arguments of one `add_log` call beyond the goal id, with the Python
defaults; `timestamp` models the `datetime.now()` default factory. -/
structure LogArgs where
  raw_input : String
  parsed_update : String := ""
  value : Option ℚ := none
  unit : String := ""
  sentiment : String := "neutral"
  timestamp : Int

/-- Embeds `storage.add_log`: `none` (with the document untouched and no
save) when no stored goal has id `goal_id`; otherwise the entry is created
with `id = next_log_id`, appended, the counter bumped and the file saved. -/
def add_log (goal_id : Int) (a : LogArgs) (s : DataStore) :
    Option LogEntry × DataStore × Bool :=
  if s.goals.any (fun g => g.id == goal_id) then
    let log : LogEntry :=
      { id := s.next_log_id, goal_id := goal_id, raw_input := a.raw_input,
        parsed_update := a.parsed_update, value := a.value, unit := a.unit,
        timestamp := a.timestamp, sentiment := a.sentiment }
    (some log, { s with logs := s.logs ++ [log], next_log_id := s.next_log_id + 1 }, true)
  else (none, s, false)

/-- Embeds `storage.get_logs`: all logs, or those of one goal, in insertion
order. -/
def get_logs (goal_id : Option Int) (s : DataStore) : List LogEntry :=
  match goal_id with
  | some gid => s.logs.filter (fun l => l.goal_id = gid)
  | none => s.logs

/-- Embeds `storage.get_goal`: first stored goal with the given id. -/
def get_goal (gid : Int) (s : DataStore) : Option Goal :=
  s.goals.find? (fun g => g.id = gid)

/-- Embeds `l.timestamp.date()`: the calendar day of an instant, flooring the
epoch value to whole days. -/
def logDate (l : LogEntry) : Int := l.timestamp.fdiv 86400

/-- The loop of `ResolutionApp._calc_streak`: walk the strictly descending
remaining dates, counting while each is exactly one day before the previous
one and stopping at the first gap. -/
def streakRun : Int → List Int → Nat
  | _, [] => 0
  | prev, d :: rest => if d = prev - 1 then 1 + streakRun d rest else 0

/-- Embeds `ResolutionApp._calc_streak`, with `today` passed explicitly in
place of `datetime.now().date()`; `sorted(set(...), reverse=True)` becomes an
insertion sort of the deduplicated date list under `≥`. -/
def calc_streak (logs : List LogEntry) (today : Int) : Nat :=
  if logs.isEmpty then 0
  else
    match List.insertionSort (· ≥ ·) (logs.map logDate).dedup with
    | [] => 0
    | d0 :: rest => if d0 < today - 1 then 0 else 1 + streakRun d0 rest

/-- One log's contribution to a sparkline bucket, Python's `l.value or 1`:
the value itself, except that `None` and the falsy float `0` both yield 1. -/
def valueOr1 (l : LogEntry) : ℚ :=
  match l.value with
  | none => 1
  | some v => if v = 0 then 1 else v

/-- Embeds `ResolutionApp._get_sparkline`, with `today` explicit: for
`i = 6, 5, …, 0` sum `l.value or 1` over the logs of day `today - i`. -/
def get_sparkline (logs : List LogEntry) (today : Int) : List ℚ :=
  ((List.range 7).reverse).map (fun i : ℕ =>
    ((logs.filter (fun l => logDate l = today - (i : Int))).map valueOr1).sum)

/-- The recent-activity series exactly as the spec words it: each log
contributes its `value`, defaulting to `1` precisely when the value is
absent.  Stated for comparison with `get_sparkline`. -/
def recentActivitySpec (logs : List LogEntry) (today : Int) : List ℚ :=
  ((List.range 7).reverse).map (fun i : ℕ =>
    ((logs.filter (fun l => logDate l = today - (i : Int))).map
      (fun l => l.value.getD 1)).sum)

/-- A JSON value tree as produced by `json.dump` and consumed by `json.load`
(Python's `json` distinguishes integer and float number literals and keeps
object key order; we elide the text layer, which round-trips the tree
faithfully).  A datetime leaf is kept as its instant: pydantic renders it as
an ISO-8601 string, a bijection with the instant that we do not spell out. -/
inductive Json where
  | null : Json
  | bool : Bool → Json
  | int : Int → Json
  | num : ℚ → Json
  | str : String → Json
  | arr : List Json → Json
  | obj : List (String × Json) → Json

/-- Reads a required integer field, as pydantic does for an `int` field with
no default. -/
def getInt (fields : List (String × Json)) (k : String) : Option Int :=
  match fields.lookup k with
  | some (.int n) => some n
  | _ => none

/-- Reads an integer field with a default for a missing key. -/
def getIntD (fields : List (String × Json)) (k : String) (d : Int) : Option Int :=
  match fields.lookup k with
  | none => some d
  | some (.int n) => some n
  | _ => none

/-- Reads a required string field. -/
def getStr (fields : List (String × Json)) (k : String) : Option String :=
  match fields.lookup k with
  | some (.str s) => some s
  | _ => none

/-- Reads a string field with a default for a missing key. -/
def getStrD (fields : List (String × Json)) (k : String) (d : String) : Option String :=
  match fields.lookup k with
  | none => some d
  | some (.str s) => some s
  | _ => none

/-- Reads an `Optional[float]` field defaulting to `None`: a missing key or a
JSON `null` is `None`; a number is the value (pydantic coerces ints). -/
def getValueD (fields : List (String × Json)) (k : String) : Option (Option ℚ) :=
  match fields.lookup k with
  | none => some none
  | some .null => some none
  | some (.num q) => some (some q)
  | some (.int n) => some (some (n : ℚ))
  | _ => none

/-- One goal of `store.model_dump(mode="json")`. -/
def encodeGoal (g : Goal) : Json :=
  .obj [("id", .int g.id), ("title", .str g.title),
        ("category", .str g.category), ("target", .str g.target),
        ("created_at", .int g.created_at), ("priority", .int g.priority),
        ("emoji", .str g.emoji)]

/-- One log entry of `store.model_dump(mode="json")`. -/
def encodeLog (l : LogEntry) : Json :=
  .obj [("id", .int l.id), ("goal_id", .int l.goal_id),
        ("raw_input", .str l.raw_input), ("parsed_update", .str l.parsed_update),
        ("value", match l.value with | none => .null | some v => .num v),
        ("unit", .str l.unit), ("timestamp", .int l.timestamp),
        ("sentiment", .str l.sentiment)]

/-- The config object of `store.model_dump(mode="json")`. -/
def encodeConfig (c : Config) : Json :=
  .obj [("reminder_frequency", .str c.reminder_frequency),
        ("preferred_time", .str c.preferred_time),
        ("ai_personality", .str c.ai_personality)]

/-- Embeds `storage.save_data`'s payload, `store.model_dump(mode="json")`:
the document tree written to the data file. -/
def save_data (s : DataStore) : Json :=
  .obj [("goals", .arr (s.goals.map encodeGoal)),
        ("logs", .arr (s.logs.map encodeLog)),
        ("config", encodeConfig s.config),
        ("next_goal_id", .int s.next_goal_id),
        ("next_log_id", .int s.next_log_id)]

/-- Validates a JSON array elementwise, in order, failing on the first
invalid element (as pydantic does for a list field). -/
def decodeList (f : Json → Option α) : List Json → Option (List α)
  | [] => some []
  | j :: js => (f j).bind fun x => (decodeList f js).bind fun xs => some (x :: xs)

/-- Validates one goal as `Goal.model_validate` does: required `id` and
`title`, defaults for the other fields, and the `priority` bound `1..10`.
A missing `created_at` would be filled with the current time by the pydantic
default factory; we require it, as every saved document carries it. -/
def decodeGoal (j : Json) : Option Goal :=
  match j with
  | .obj fields =>
    match getInt fields "id", getStr fields "title",
          getStrD fields "category" "general", getStrD fields "target" "",
          getInt fields "created_at", getIntD fields "priority" 3,
          getStrD fields "emoji" "" with
    | some id, some title, some cat, some tgt, some created, some pr, some em =>
      if 1 ≤ pr ∧ pr ≤ 10 then some ⟨id, title, cat, tgt, created, pr, em⟩
      else none
    | _, _, _, _, _, _, _ => none
  | _ => none

/-- Validates one log entry as `LogEntry.model_validate` does; no field is
constrained. -/
def decodeLog (j : Json) : Option LogEntry :=
  match j with
  | .obj fields =>
    match getInt fields "id", getInt fields "goal_id",
          getStr fields "raw_input", getStrD fields "parsed_update" "",
          getValueD fields "value", getStrD fields "unit" "",
          getInt fields "timestamp", getStrD fields "sentiment" "neutral" with
    | some id, some gid, some raw, some pu, some v, some u, some ts, some sen =>
      some ⟨id, gid, raw, pu, v, u, ts, sen⟩
    | _, _, _, _, _, _, _, _ => none
  | _ => none

/-- Validates the config as `Config.model_validate` does. -/
def decodeConfig (j : Json) : Option Config :=
  match j with
  | .obj fields =>
    match getStrD fields "reminder_frequency" "daily",
          getStrD fields "preferred_time" "09:00",
          getStrD fields "ai_personality" "balanced" with
    | some rf, some pt, some ap => some ⟨rf, pt, ap⟩
    | _, _, _ => none
  | _ => none

/-- Embeds `storage.load_data` on an existing file:
`DataStore.model_validate(json.load(f))`; `none` models the pydantic
`ValidationError`, the fatal parse failure of the spec. -/
def load_data (j : Json) : Option DataStore :=
  match j with
  | .obj fields =>
    (match fields.lookup "goals" with
     | none => some []
     | some (.arr l) => decodeList decodeGoal l
     | some _ => none).bind fun gs =>
    (match fields.lookup "logs" with
     | none => some []
     | some (.arr l) => decodeList decodeLog l
     | some _ => none).bind fun ls =>
    (match fields.lookup "config" with
     | none => some Config.defaults
     | some jc => decodeConfig jc).bind fun c =>
    (getIntD fields "next_goal_id" 1).bind fun ng =>
    (getIntD fields "next_log_id" 1).bind fun nl =>
    some ⟨gs, ls, c, ng, nl⟩
  | _ => none

/-- The key/value payload that `_extract_json` yields from the AI reply text;
each `data.get(...)` access in `ai.analyze_log` is modelled by an optional
field (`none` for a missing key). -/
structure AIReply where
  goal_id : Option Int
  parsed_update : Option String
  value : Option ℚ
  unit : Option String
  sentiment : Option String

/-- Embeds `models.LogAnalysis`. -/
structure LogAnalysis where
  goal_id : Int
  parsed_update : String
  value : Option ℚ
  unit : String
  sentiment : String
  deriving DecidableEq

/-- Embeds `ai.analyze_log`: an empty goal list short-circuits before any AI
call; otherwise the AI call either yields a parsed payload (`.ok`) or raises
a parse error (`.error ()`, the caught `JSONDecodeError`/`KeyError` path),
which falls back to the first goal and the raw text. -/
def analyze_log (raw_input : String) (goals : List Goal)
    (reply : Except Unit AIReply) : LogAnalysis :=
  match goals with
  | [] => ⟨0, raw_input, none, "", "neutral"⟩
  | g0 :: _ =>
    match reply with
    | .ok d =>
      ⟨d.goal_id.getD g0.id, d.parsed_update.getD raw_input, d.value,
       d.unit.getD "", d.sentiment.getD "neutral"⟩
    | .error _ => ⟨g0.id, raw_input, none, "", "neutral"⟩

/-- The goal-matching step of `cli.log`'s AI path:
`storage.get_goal(analysis.goal_id)` (a search of the same loaded goal list)
with fallback to the first goal when the id is not found. -/
def cliMatchGoal (analysis : LogAnalysis) (goals : List Goal) : Option Goal :=
  match goals.find? (fun g => g.id = analysis.goal_id) with
  | some g => some g
  | none => goals.head?

/-- The CLI rendering `log_entry.parsed_update or log_entry.raw_input`
(`cli.py`): the raw text is substituted exactly when the parsed summary is
the empty (falsy) string. -/
def displayUpdate (l : LogEntry) : String :=
  if l.parsed_update = "" then l.raw_input else l.parsed_update

/-! Concrete fixtures used by counterexamples and witnesses. -/

/-- A valid stored goal with id 1. -/
def gRun : Goal := ⟨1, "run", "general", "", 0, 3, ""⟩

/-- A store holding `gRun`, counters past it. -/
def sOne : DataStore := ⟨[gRun], [], Config.defaults, 2, 1⟩

/-- A log entry whose `goal_id` matches no stored goal. -/
def orphanLog : LogEntry := ⟨1, 7, "walked", "", none, "", 0, "neutral"⟩

/-- A store with no goals but one orphan log. -/
def sOrphan : DataStore := ⟨[], [orphanLog], Config.defaults, 1, 2⟩

/-- A log entry carrying the explicit value 0. -/
def zeroValueLog : LogEntry := ⟨1, 1, "rested", "", some 0, "", 0, "neutral"⟩

/-- A store whose goal id is not below `next_goal_id`. -/
def sDup : DataStore := ⟨[gRun], [], Config.defaults, 1, 1⟩

/-- A goal whose priority violates the pydantic bound. -/
def badPriorityGoal : Goal := ⟨1, "run", "general", "", 0, 11, ""⟩

/-- A store holding `badPriorityGoal`. -/
def sBadPriority : DataStore := ⟨[badPriorityGoal], [], Config.defaults, 2, 1⟩

/-- Logs on three consecutive days 98, 99, 100 (no gaps). -/
def demoLogs : List LogEntry :=
  [⟨1, 1, "a", "", none, "", 8467200, "neutral"⟩,
   ⟨2, 1, "b", "", none, "", 8553600, "neutral"⟩,
   ⟨3, 1, "c", "", none, "", 8640000, "neutral"⟩]

/-- A single log on day 97, three days before day 100. -/
def staleLogs : List LogEntry :=
  [⟨1, 1, "a", "", none, "", 8380800, "neutral"⟩]

/-! ## C10 — priority validation at goal creation -/

/-- C10: goal creation validates the priority bound.  For every priority
outside 1..10 the pydantic constructor raises, so `add_goal` yields the
error signal and no goal is stored (the caller's document is unchanged);
for every priority within 1..10 the construction succeeds and the new goal
enters the store with that priority. -/
theorem add_goal_priority_validated (a : GoalArgs) (s : DataStore) :
    (¬ (1 ≤ a.priority ∧ a.priority ≤ 10) → add_goal a s = .error ()) ∧
    ((1 ≤ a.priority ∧ a.priority ≤ 10) →
      ∃ g s', add_goal a s = .ok (g, s') ∧ g.priority = a.priority ∧
        s'.goals = s.goals ++ [g]) := by
  constructor
  · intro h
    simp [add_goal, mkGoal, h]
  · intro h
    have hadd : add_goal a s =
        .ok (⟨s.next_goal_id, a.title, a.category, a.target, a.created, a.priority,
              a.emoji⟩,
             { s with
                goals := s.goals ++
                  [⟨s.next_goal_id, a.title, a.category, a.target, a.created,
                    a.priority, a.emoji⟩],
                next_goal_id := s.next_goal_id + 1 }) := by
      simp [add_goal, mkGoal, h]
    exact ⟨_, _, hadd, rfl, rfl⟩

/-- Witness for C10 at a concrete call. -/
theorem add_goal_priority_validated_witness :
    add_goal ⟨"run", "general", "", 11, "", 0⟩ DataStore.fresh = .error () ∧
    ∃ g s', add_goal ⟨"run", "general", "", 3, "", 0⟩ DataStore.fresh = .ok (g, s') ∧
      g.priority = 3 ∧ s'.goals = DataStore.fresh.goals ++ [g] :=
  ⟨(add_goal_priority_validated ⟨"run", "general", "", 11, "", 0⟩ DataStore.fresh).1
      (by decide),
   (add_goal_priority_validated ⟨"run", "general", "", 3, "", 0⟩ DataStore.fresh).2
      (by decide)⟩

/-! ## C3 — add_log on a missing goal id -/

/-- C3: `add_log` with a `goal_id` matching no stored goal returns the
not-found signal, appends nothing, leaves `next_log_id` (and the whole
document) unchanged and never saves; with an existing `goal_id` it creates
the entry with `id = next_log_id`, appends it, bumps the counter and
saves. -/
theorem add_log_spec (gid : Int) (a : LogArgs) (s : DataStore) :
    ((∀ g ∈ s.goals, g.id ≠ gid) → add_log gid a s = (none, s, false)) ∧
    ((∃ g ∈ s.goals, g.id = gid) →
      ∃ e, add_log gid a s =
          (some e, { s with logs := s.logs ++ [e], next_log_id := s.next_log_id + 1 },
           true) ∧
        e.id = s.next_log_id ∧ e.goal_id = gid ∧ e.raw_input = a.raw_input) := by
  constructor
  · intro h
    have hany : (s.goals.any fun g => g.id == gid) = false := by
      simp only [List.any_eq_false, beq_iff_eq]
      exact h
    simp [add_log, hany]
  · rintro ⟨g, hg, hgid⟩
    have hany : (s.goals.any fun g => g.id == gid) = true := by
      simp only [List.any_eq_true, beq_iff_eq]
      exact ⟨g, hg, hgid⟩
    have hadd : add_log gid a s =
        (some ⟨s.next_log_id, gid, a.raw_input, a.parsed_update, a.value, a.unit,
               a.timestamp, a.sentiment⟩,
         { s with
            logs := s.logs ++
              [⟨s.next_log_id, gid, a.raw_input, a.parsed_update, a.value, a.unit,
                a.timestamp, a.sentiment⟩],
            next_log_id := s.next_log_id + 1 },
         true) := by
      simp [add_log, hany]
    exact ⟨_, hadd, rfl, rfl, rfl⟩

/-- Witness for C3: a missing and a present goal id on the fixture store. -/
theorem add_log_spec_witness :
    add_log 7 ⟨"walked", "", none, "", "neutral", 0⟩ sOne =
      (none, sOne, false) ∧
    ∃ e, add_log 1 ⟨"walked", "", none, "", "neutral", 0⟩ sOne =
        (some e,
         { sOne with logs := sOne.logs ++ [e], next_log_id := sOne.next_log_id + 1 },
         true) ∧
      e.id = sOne.next_log_id ∧ e.goal_id = 1 ∧ e.raw_input = "walked" :=
  ⟨(add_log_spec 7 ⟨"walked", "", none, "", "neutral", 0⟩ sOne).1 (by decide),
   (add_log_spec 1 ⟨"walked", "", none, "", "neutral", 0⟩ sOne).2
     ⟨gRun, by decide, by decide⟩⟩

/-! ## C8 — default of parsed_update -/

/-- C8 counterexample: an `add_log` call supplying no `parsed_update` stores
the empty string, not the raw input, so the created entry's `parsed_update`
differs from its `raw_input`. -/
theorem add_log_parsed_default_cex :
    (add_log 1 ⟨"ran 3 miles", "", none, "", "neutral", 0⟩ sOne).1 =
      some ⟨1, 1, "ran 3 miles", "", none, "", 0, "neutral"⟩ ∧
    ("" : String) ≠ "ran 3 miles" :=
  ⟨rfl, by decide⟩

/-- C8 amended: when no `parsed_update` is supplied, the stored entry's
`parsed_update` is the empty string (the Python default), and the CLI
rendering `parsed_update or raw_input` therefore displays the verbatim raw
input. -/
theorem add_log_parsed_update_default (gid : Int) (raw : String) (v : Option ℚ)
    (u sen : String) (ts : Int) (s : DataStore) (e : LogEntry)
    (h : (add_log gid ⟨raw, "", v, u, sen, ts⟩ s).1 = some e) :
    e.parsed_update = "" ∧ displayUpdate e = raw ∧ e.raw_input = raw := by
  unfold add_log at h
  split at h
  · simp only [Option.some.injEq] at h
    subst h
    refine ⟨rfl, ?_, rfl⟩
    simp [displayUpdate]
  · simp at h

/-- Witness for C8's amended claim at a concrete call. -/
theorem add_log_parsed_update_default_witness :
    (⟨1, 1, "ran 3 miles", "", none, "", 0, "neutral"⟩ : LogEntry).parsed_update = "" ∧
    displayUpdate ⟨1, 1, "ran 3 miles", "", none, "", 0, "neutral"⟩ = "ran 3 miles" ∧
    (⟨1, 1, "ran 3 miles", "", none, "", 0, "neutral"⟩ : LogEntry).raw_input = "ran 3 miles" :=
  add_log_parsed_update_default 1 "ran 3 miles" none "" "neutral" 0 sOne
    ⟨1, 1, "ran 3 miles", "", none, "", 0, "neutral"⟩ rfl

/-! ## C9 — analyze_log fallbacks -/

/-- C9: with an empty goal list, `analyze_log` is a neutral-sentiment echo of
the raw text with no goal match (goal id 0, no value, empty unit); and when
the analysis names a goal id matching no current goal, the CLI matching step
falls back to the first goal of the list. -/
theorem analyze_log_fallback (raw : String) (reply : Except Unit AIReply)
    (goals : List Goal) :
    analyze_log raw [] reply = ⟨0, raw, none, "", "neutral"⟩ ∧
    (∀ g0 rest, goals = g0 :: rest →
      (analyze_log raw goals reply).goal_id ∉ goals.map Goal.id →
        cliMatchGoal (analyze_log raw goals reply) goals = some g0) := by
  constructor
  · rfl
  · intro g0 rest hg hnot
    have hfind : goals.find? (fun g => g.id = (analyze_log raw goals reply).goal_id)
        = none := by
      rw [List.find?_eq_none]
      intro g hg'
      simp only [decide_eq_true_eq]
      intro hid
      exact hnot (hid ▸ List.mem_map_of_mem Goal.id hg')
    rw [cliMatchGoal, hfind, hg]
    rfl

/-- Witness for C9 at a concrete goal list and AI payload. -/
theorem analyze_log_fallback_witness :
    analyze_log "walked" [] (.ok ⟨some 42, none, none, none, none⟩) =
      ⟨0, "walked", none, "", "neutral"⟩ ∧
    cliMatchGoal (analyze_log "walked" [gRun] (.ok ⟨some 42, none, none, none, none⟩))
        [gRun] = some gRun :=
  ⟨(analyze_log_fallback "walked" (.ok ⟨some 42, none, none, none, none⟩) [gRun]).1,
   (analyze_log_fallback "walked" (.ok ⟨some 42, none, none, none, none⟩) [gRun]).2
     gRun [] rfl (by decide)⟩

/-! ## C7 — update_goal replaces exactly the supplied fields -/

/-- The `update_goal` loop leaves the list untouched when no goal matches. -/
lemma updateGoalList_not_found (gs : List Goal) (gid : Int) (p : GoalPatch)
    (h : ∀ g ∈ gs, g.id ≠ gid) : updateGoalList gs gid p = (none, gs) := by
  induction gs with
  | nil => rfl
  | cons g gs ih =>
    have hg : ¬ g.id = gid := h g (List.mem_cons_self g gs)
    simp [updateGoalList, hg, ih fun g' hg' => h g' (List.mem_cons_of_mem g hg')]

/-- The `update_goal` loop replaces exactly the first matching goal. -/
lemma updateGoalList_found (l1 : List Goal) (g0 : Goal) (l2 : List Goal)
    (gid : Int) (p : GoalPatch) (h1 : ∀ g ∈ l1, g.id ≠ gid) (h0 : g0.id = gid) :
    updateGoalList (l1 ++ g0 :: l2) gid p =
      (some (modelCopy g0 p), l1 ++ modelCopy g0 p :: l2) := by
  induction l1 with
  | nil => simp [updateGoalList, h0]
  | cons g l1 ih =>
    have hg : ¬ g.id = gid := h1 g (List.mem_cons_self g l1)
    simp [updateGoalList, hg, ih fun g' hg' => h1 g' (List.mem_cons_of_mem g hg')]

/-- C7 counterexample: supplying `id` in the partial-fields argument does
mutate the goal's id (`model_copy` protects nothing), so the claim's
"never mutates the goal's id" fails for that argument. -/
theorem update_goal_id_mutation_cex :
    (update_goal 1 ⟨some 99, none, none, none, none, none, none⟩ sOne).1 =
      some ⟨99, "run", "general", "", 0, 3, ""⟩ ∧ (99 : Int) ≠ 1 :=
  ⟨rfl, by decide⟩

/-- C7 amended: for a partial-fields argument not supplying `id` or
`created_at`, `update_goal` replaces exactly the supplied fields of the
first goal with the given id, keeps `id` and `created_at`, leaves every
other goal, the logs, the config and the counters unchanged, and returns
the not-found signal changing nothing when the id is absent. -/
theorem update_goal_spec (gid : Int) (p : GoalPatch) (s : DataStore)
    (hpid : p.id = none) (hpca : p.created_at = none) :
    (update_goal gid p s).2.1.logs = s.logs ∧
    (update_goal gid p s).2.1.config = s.config ∧
    (update_goal gid p s).2.1.next_goal_id = s.next_goal_id ∧
    (update_goal gid p s).2.1.next_log_id = s.next_log_id ∧
    ((∀ g ∈ s.goals, g.id ≠ gid) → update_goal gid p s = (none, s, false)) ∧
    (∀ l1 g0 l2, s.goals = l1 ++ g0 :: l2 → (∀ g ∈ l1, g.id ≠ gid) → g0.id = gid →
      (update_goal gid p s).1 = some (modelCopy g0 p) ∧
      (update_goal gid p s).2.1.goals = l1 ++ modelCopy g0 p :: l2 ∧
      (update_goal gid p s).2.2 = true ∧
      (modelCopy g0 p).id = g0.id ∧
      (modelCopy g0 p).created_at = g0.created_at ∧
      (p.title = none → (modelCopy g0 p).title = g0.title) ∧
      (∀ t, p.title = some t → (modelCopy g0 p).title = t) ∧
      (p.category = none → (modelCopy g0 p).category = g0.category) ∧
      (∀ t, p.category = some t → (modelCopy g0 p).category = t) ∧
      (p.target = none → (modelCopy g0 p).target = g0.target) ∧
      (∀ t, p.target = some t → (modelCopy g0 p).target = t) ∧
      (p.priority = none → (modelCopy g0 p).priority = g0.priority) ∧
      (∀ n, p.priority = some n → (modelCopy g0 p).priority = n) ∧
      (p.emoji = none → (modelCopy g0 p).emoji = g0.emoji) ∧
      (∀ t, p.emoji = some t → (modelCopy g0 p).emoji = t)) := by
  refine ⟨rfl, rfl, rfl, rfl, ?_, ?_⟩
  · intro h
    unfold update_goal
    rw [updateGoalList_not_found s.goals gid p h]
    rfl
  · intro l1 g0 l2 hsplit h1 h0
    have hul := updateGoalList_found l1 g0 l2 gid p h1 h0
    unfold update_goal
    rw [hsplit, hul]
    refine ⟨rfl, rfl, rfl, ?_, ?_, ?_, ?_, ?_, ?_, ?_, ?_, ?_, ?_, ?_, ?_⟩
    · simp [modelCopy, hpid]
    · simp [modelCopy, hpca]
    · intro h; simp [modelCopy, h]
    · intro t h; simp [modelCopy, h]
    · intro h; simp [modelCopy, h]
    · intro t h; simp [modelCopy, h]
    · intro h; simp [modelCopy, h]
    · intro t h; simp [modelCopy, h]
    · intro h; simp [modelCopy, h]
    · intro n h; simp [modelCopy, h]
    · intro h; simp [modelCopy, h]
    · intro t h; simp [modelCopy, h]

/-- Witness for C7's amended claim: renaming the fixture goal replaces the
title, keeps everything else. -/
theorem update_goal_spec_witness :
    (update_goal 1 ⟨none, some "jog", none, none, none, none, none⟩ sOne).1 =
      some ⟨1, "jog", "general", "", 0, 3, ""⟩ ∧
    (update_goal 1 ⟨none, some "jog", none, none, none, none, none⟩ sOne).2.1.logs =
      sOne.logs := by
  have h := update_goal_spec 1 ⟨none, some "jog", none, none, none, none, none⟩
    sOne rfl rfl
  have hf := h.2.2.2.2.2 [] gRun [] rfl (by intro g hg; simp at hg) (by decide)
  refine ⟨?_, h.1⟩
  rw [hf.1]
  rfl

/-! ## C2 — remove_goal cascade -/

/-- Filtering strictly shrinks a list exactly when some element fails the
predicate. -/
lemma length_filter_lt_iff (p : α → Bool) (l : List α) :
    (l.filter p).length < l.length ↔ ∃ x ∈ l, ¬ p x := by
  constructor
  · intro h
    by_contra hall
    push_neg at hall
    rw [List.filter_eq_self.mpr hall] at h
    exact lt_irrefl _ h
  · rintro ⟨x, hx, hpx⟩
    refine lt_of_le_of_ne (List.length_filter_le p l) ?_
    intro heq
    have : l.filter p = l := (List.filter_sublist l).eq_of_length heq
    rw [← this] at hx
    exact hpx (List.mem_filter.mp hx).2

/-- C2 counterexample: on a store holding a log whose goal id matches no
goal, `remove_goal` of that id returns `false` yet still drops the orphan
log from the in-memory document, so "removing nothing" fails. -/
theorem remove_goal_drops_orphan_logs_cex :
    (remove_goal 7 sOrphan).1 = false ∧
    (remove_goal 7 sOrphan).2.1.logs ≠ sOrphan.logs :=
  ⟨rfl, by decide⟩

/-- C2 amended: `remove_goal` removes the goal with the given id together
with every log entry of that id (a subsequent filtered `get_logs` is empty),
keeps all other goals and logs, and returns `true` exactly when a goal with
that id was found; otherwise it returns `false` without saving, leaves the
goals unchanged, and — provided no stored log carries the absent id, as in
every store whose logs all reference existing goals — changes nothing at
all (orphan logs of that id would nonetheless be dropped from the unsaved
in-memory document). -/
theorem remove_goal_spec (gid : Int) (s : DataStore) :
    ((remove_goal gid s).1 = true ↔ ∃ g ∈ s.goals, g.id = gid) ∧
    (∀ g ∈ (remove_goal gid s).2.1.goals, g.id ≠ gid) ∧
    (∀ g ∈ s.goals, g.id ≠ gid → g ∈ (remove_goal gid s).2.1.goals) ∧
    get_logs (some gid) (remove_goal gid s).2.1 = [] ∧
    (∀ l ∈ s.logs, l.goal_id ≠ gid → l ∈ (remove_goal gid s).2.1.logs) ∧
    ((∀ g ∈ s.goals, g.id ≠ gid) →
      (remove_goal gid s).1 = false ∧ (remove_goal gid s).2.2 = false ∧
      (remove_goal gid s).2.1.goals = s.goals ∧
      ((∀ l ∈ s.logs, l.goal_id ≠ gid) → (remove_goal gid s).2.1 = s)) := by
  obtain ⟨gs, ls, c, ng, nl⟩ := s
  refine ⟨?_, ?_, ?_, ?_, ?_, ?_⟩
  · simp only [remove_goal, decide_eq_true_eq]
    rw [length_filter_lt_iff]
    simp
  · intro g hg
    simp only [remove_goal, List.mem_filter, decide_eq_true_eq] at hg
    exact hg.2
  · intro g hg hne
    simp only [remove_goal, List.mem_filter, decide_eq_true_eq]
    exact ⟨hg, hne⟩
  · simp only [remove_goal, get_logs]
    rw [List.filter_eq_nil_iff]
    intro l hl
    simp only [List.mem_filter, decide_eq_true_eq] at hl
    simp only [decide_eq_true_eq]
    exact hl.2
  · intro l hl hne
    simp only [remove_goal, List.mem_filter, decide_eq_true_eq]
    exact ⟨hl, hne⟩
  · intro h
    have hg : gs.filter (fun g => ¬ g.id = gid) = gs :=
      List.filter_eq_self.mpr (by intro g hgm; simpa using h g hgm)
    have hnolt : ¬ ((gs.filter (fun g => ¬ g.id = gid)).length < gs.length) := by
      rw [length_filter_lt_iff]
      rintro ⟨g, hgm, hpg⟩
      exact hpg (by simpa using h g hgm)
    refine ⟨?_, ?_, ?_, ?_⟩
    · simp only [remove_goal]
      rw [decide_eq_false_iff_not]
      exact hnolt
    · simp only [remove_goal]
      rw [decide_eq_false_iff_not]
      exact hnolt
    · simp only [remove_goal]
      exact hg
    · intro hl
      have hlf : ls.filter (fun l => ¬ l.goal_id = gid) = ls :=
        List.filter_eq_self.mpr (by intro l hlm; simpa using hl l hlm)
      simp only [remove_goal]
      rw [hg, hlf]

/-- Witness for C2 at the fixture stores: a present id is found and its logs
are gone afterwards; an absent id reports `false`. -/
theorem remove_goal_spec_witness :
    (remove_goal 1 sOne).1 = true ∧
    get_logs (some 1) (remove_goal 1 sOne).2.1 = [] ∧
    (remove_goal 7 sOne).1 = false := by
  have h := remove_goal_spec 1 sOne
  have h7 := remove_goal_spec 7 sOne
  exact ⟨h.1.mpr ⟨gRun, by decide, by decide⟩, h.2.2.2.1,
    (h7.2.2.2.2.2 (by decide)).1⟩

/-! ## C1 — ids assigned by a sequence of add_goal calls -/

/-- Two valid `add_goal` calls used by witnesses. -/
def demoCalls : List GoalArgs :=
  [⟨"a", "general", "", 3, "", 0⟩, ⟨"b", "general", "", 5, "", 0⟩]

/-- Under valid priorities, a sequence of `add_goal` calls assigns exactly
the ids `next_goal_id, next_goal_id + 1, …` and advances the counter by the
number of calls. -/
lemma add_goals_ids (calls : List GoalArgs) :
    ∀ s : DataStore, (∀ a ∈ calls, 1 ≤ a.priority ∧ a.priority ≤ 10) →
      (add_goals calls s).1 =
        (List.range calls.length).map (fun i : ℕ => s.next_goal_id + (i : ℤ)) ∧
      (add_goals calls s).2.next_goal_id = s.next_goal_id + calls.length := by
  induction calls with
  | nil =>
    intro s h
    exact ⟨rfl, by simp [add_goals]⟩
  | cons a rest ih =>
    intro s h
    have hp := h a (List.mem_cons_self a rest)
    have hmk : mkGoal s.next_goal_id a.title a.category a.target a.created
        a.priority a.emoji =
        some ⟨s.next_goal_id, a.title, a.category, a.target, a.created,
              a.priority, a.emoji⟩ := by
      unfold mkGoal
      rw [if_pos hp]
    obtain ⟨ih1, ih2⟩ := ih
      { s with
        goals := s.goals ++ [⟨s.next_goal_id, a.title, a.category, a.target,
          a.created, a.priority, a.emoji⟩],
        next_goal_id := s.next_goal_id + 1 }
      (fun a' ha' => h a' (List.mem_cons_of_mem a ha'))
    constructor
    · simp only [add_goals, add_goal, hmk]
      rw [ih1, List.length_cons, List.range_succ_eq_map]
      simp only [List.map_cons, List.map_map, Nat.cast_zero, add_zero]
      refine congrArg _ ?_
      apply List.map_congr_left
      intro i hi
      simp only [Function.comp_apply]
      push_cast
      ring
    · simp only [add_goals, add_goal, hmk]
      rw [ih2]
      simp only [List.length_cons]
      push_cast
      ring

/-- C1 counterexample: from a store whose goal ids are not all below
`nextGoalId` (obtainable by loading a hand-edited data file, which the
loader accepts), an `add_goal` call assigns an id already present in the
document, so "never reusing an id present in the document" fails for that
starting state. -/
theorem add_goal_reuses_id_cex :
    (add_goals [⟨"new", "general", "", 3, "", 0⟩] sDup).1 = [1] ∧
    (1 : ℤ) ∈ sDup.goals.map Goal.id :=
  ⟨rfl, by decide⟩

/-- C1 amended: for every sequence of valid `add_goal` calls starting from a
store in which every existing goal id is below `nextGoalId` (true of the
fresh store and preserved by every storage operation), the assigned ids are
strictly increasing, mutually distinct, and distinct from every id already
in the document, one id per call, and `nextGoalId` afterwards equals its
initial value plus the number of calls. -/
theorem add_goal_sequence_spec (calls : List GoalArgs) (s : DataStore)
    (hvalid : ∀ a ∈ calls, 1 ≤ a.priority ∧ a.priority ≤ 10)
    (hids : ∀ g ∈ s.goals, g.id < s.next_goal_id) :
    List.Pairwise (· < ·) (add_goals calls s).1 ∧
    (add_goals calls s).1.Nodup ∧
    (∀ x ∈ (add_goals calls s).1, ∀ g ∈ s.goals, g.id ≠ x) ∧
    (add_goals calls s).2.next_goal_id = s.next_goal_id + calls.length ∧
    (add_goals calls s).1.length = calls.length := by
  obtain ⟨h1, h2⟩ := add_goals_ids calls s hvalid
  have hpw : List.Pairwise (· < ·) (add_goals calls s).1 := by
    rw [h1]
    refine List.Pairwise.map _ ?_ (List.pairwise_lt_range calls.length)
    intro i j hij
    omega
  refine ⟨hpw, hpw.imp ne_of_lt, ?_, h2, ?_⟩
  · intro x hx g hg
    rw [h1] at hx
    obtain ⟨i, hi, rfl⟩ := List.mem_map.mp hx
    have := hids g hg
    omega
  · rw [h1]
    simp

/-- Witness for C1's amended claim: two calls on the fresh store. -/
theorem add_goal_sequence_spec_witness :
    (add_goals demoCalls DataStore.fresh).1.Nodup ∧
    (add_goals demoCalls DataStore.fresh).2.next_goal_id =
      DataStore.fresh.next_goal_id + demoCalls.length := by
  have h := add_goal_sequence_spec demoCalls DataStore.fresh (by decide) (by decide)
  exact ⟨h.2.1, h.2.2.2.1⟩

/-! ## C5 — recent-activity sparkline -/

/-- Per-day bucket total of the sparkline: the sum of `l.value or 1` over
the logs whose calendar date is `d`. -/
def daySum (logs : List LogEntry) (d : Int) : ℚ :=
  ((logs.filter (fun l => logDate l = d)).map valueOr1).sum

/-- C5 counterexample: a log carrying the explicit value 0 contributes 1,
not its value (Python's `l.value or 1` treats the float 0.0 as falsy), so
the computed series differs from the claimed one, which defaults only
absent values. -/
theorem get_sparkline_zero_value_cex :
    get_sparkline [zeroValueLog] 0 ≠ recentActivitySpec [zeroValueLog] 0 := by
  have h1 : get_sparkline [zeroValueLog] 0 = [0, 0, 0, 0, 0, 0, 1] := by
    simp +decide [get_sparkline, zeroValueLog, logDate, valueOr1, List.range_succ]
  have h2 : recentActivitySpec [zeroValueLog] 0 = [0, 0, 0, 0, 0, 0, 0] := by
    simp +decide [recentActivitySpec, zeroValueLog, logDate, List.range_succ]
  rw [h1, h2]
  decide

/-- C5 amended: the series has exactly 7 entries, ordered oldest to newest
ending today; entry `j` is the sum over the logs of calendar day
`today - 6 + j` of each log's value, a log contributing 1 exactly when its
value is absent or equal to zero. -/
theorem get_sparkline_spec (logs : List LogEntry) (today : Int) :
    (get_sparkline logs today).length = 7 ∧
    ∀ j : ℕ, j < 7 →
      (get_sparkline logs today)[j]? = some (daySum logs (today - 6 + j)) := by
  refine ⟨rfl, ?_⟩
  intro j hj
  interval_cases j
  · rw [show (today - 6 + ((0 : ℕ) : ℤ)) = today - ((6 : ℕ) : ℤ) by push_cast; ring]
    rfl
  · rw [show (today - 6 + ((1 : ℕ) : ℤ)) = today - ((5 : ℕ) : ℤ) by push_cast; ring]
    rfl
  · rw [show (today - 6 + ((2 : ℕ) : ℤ)) = today - ((4 : ℕ) : ℤ) by push_cast; ring]
    rfl
  · rw [show (today - 6 + ((3 : ℕ) : ℤ)) = today - ((3 : ℕ) : ℤ) by push_cast; ring]
    rfl
  · rw [show (today - 6 + ((4 : ℕ) : ℤ)) = today - ((2 : ℕ) : ℤ) by push_cast; ring]
    rfl
  · rw [show (today - 6 + ((5 : ℕ) : ℤ)) = today - ((1 : ℕ) : ℤ) by push_cast; ring]
    rfl
  · rw [show (today - 6 + ((6 : ℕ) : ℤ)) = today - ((0 : ℕ) : ℤ) by push_cast; ring]
    rfl

/-- Witness for C5's amended claim on the fixture logs. -/
theorem get_sparkline_spec_witness :
    (get_sparkline demoLogs 100).length = 7 ∧
    (get_sparkline demoLogs 100)[6]? = some (daySum demoLogs (100 - 6 + 6)) := by
  have h := get_sparkline_spec demoLogs 100
  exact ⟨h.1, h.2 6 (by decide)⟩

/-! ## C6 — save/load round trip -/

/-- Decoding inverts encoding on a goal whose priority satisfies the
pydantic bound. -/
lemma decodeGoal_encodeGoal (g : Goal) (h1 : 1 ≤ g.priority)
    (h2 : g.priority ≤ 10) : decodeGoal (encodeGoal g) = some g := by
  show (if 1 ≤ g.priority ∧ g.priority ≤ 10 then
        some (⟨g.id, g.title, g.category, g.target, g.created_at, g.priority,
               g.emoji⟩ : Goal)
      else none) = some g
  rw [if_pos ⟨h1, h2⟩]

/-- Decoding inverts encoding on any log entry. -/
lemma decodeLog_encodeLog (l : LogEntry) : decodeLog (encodeLog l) = some l := by
  obtain ⟨id, gid, raw, pu, v, u, ts, sen⟩ := l
  cases v <;> rfl

/-- Decoding inverts encoding on any config. -/
lemma decodeConfig_encodeConfig (c : Config) :
    decodeConfig (encodeConfig c) = some c := by
  obtain ⟨a, b, d⟩ := c
  rfl

/-- Decoding inverts encoding on a goal list with valid priorities. -/
lemma decodeList_encodeGoal (gs : List Goal)
    (h : ∀ g ∈ gs, 1 ≤ g.priority ∧ g.priority ≤ 10) :
    decodeList decodeGoal (gs.map encodeGoal) = some gs := by
  induction gs with
  | nil => rfl
  | cons g gs ih =>
    obtain ⟨h1, h2⟩ := h g (List.mem_cons_self g gs)
    simp [decodeList, decodeGoal_encodeGoal g h1 h2,
      ih fun g' hg' => h g' (List.mem_cons_of_mem g hg')]

/-- Decoding inverts encoding on any log list. -/
lemma decodeList_encodeLog (ls : List LogEntry) :
    decodeList decodeLog (ls.map encodeLog) = some ls := by
  induction ls with
  | nil => rfl
  | cons l ls ih => simp [decodeList, decodeLog_encodeLog l, ih]

/-- C6 counterexample: a document holding a goal with priority 11 —
producible through the API, since `update_goal`'s `model_copy` skips
validation — saves fine but fails to load (`model_validate` rejects it), so
load after save is not the identity on every document. -/
theorem save_load_priority_cex :
    (update_goal 1 ⟨none, none, none, none, none, some 11, none⟩ sOne).2.1 =
      sBadPriority ∧
    load_data (save_data sBadPriority) = none :=
  ⟨rfl, rfl⟩

/-- C6 amended: for every document whose goals all carry a priority within
the validated range 1..10 — every document producible without bypassing
validation — loading after saving yields the identical document in all
fields, including empty values and units and zero counters. -/
theorem save_load_round_trip (s : DataStore)
    (h : ∀ g ∈ s.goals, 1 ≤ g.priority ∧ g.priority ≤ 10) :
    load_data (save_data s) = some s := by
  obtain ⟨gs, ls, c, ng, nl⟩ := s
  have hg : decodeList decodeGoal (gs.map encodeGoal) = some gs :=
    decodeList_encodeGoal gs h
  have hl : decodeList decodeLog (ls.map encodeLog) = some ls :=
    decodeList_encodeLog ls
  have hc : decodeConfig (encodeConfig c) = some c := decodeConfig_encodeConfig c
  have step : load_data (save_data (⟨gs, ls, c, ng, nl⟩ : DataStore)) =
      (decodeList decodeGoal (gs.map encodeGoal)).bind fun gs' =>
      (decodeList decodeLog (ls.map encodeLog)).bind fun ls' =>
      (decodeConfig (encodeConfig c)).bind fun c' =>
      some (⟨gs', ls', c', ng, nl⟩ : DataStore) := rfl
  rw [step, hg, hl, hc]
  rfl

/-- Witness for C6's amended claim: the fixture store round-trips, as does a
store with an empty-value log and zero counters. -/
theorem save_load_round_trip_witness :
    load_data (save_data sOne) = some sOne ∧
    load_data (save_data ⟨[], [orphanLog], Config.defaults, 0, 0⟩) =
      some ⟨[], [orphanLog], Config.defaults, 0, 0⟩ :=
  ⟨save_load_round_trip sOne (by decide),
   save_load_round_trip ⟨[], [orphanLog], Config.defaults, 0, 0⟩ (by decide)⟩

/-! ## C4 — streak computation -/

/-- Characterization of the streak loop on a strictly descending list:
days `d0 - 1 … d0 - k` are all present and day `d0 - (k + 1)` is not, where
`k` is the loop's count. -/
lemma streakRun_char (rest : List Int) : ∀ d0 : Int,
    (d0 :: rest).Pairwise (· > ·) →
    ((∀ j : ℕ, 1 ≤ j → j ≤ streakRun d0 rest → (d0 - (j : ℤ)) ∈ d0 :: rest) ∧
     (d0 - ((streakRun d0 rest + 1 : ℕ) : ℤ)) ∉ d0 :: rest) := by
  induction rest with
  | nil =>
    intro d0 _
    constructor
    · intro j hj1 hj2
      simp [streakRun] at hj2
      omega
    · simp only [streakRun, List.mem_singleton]
      intro h
      omega
  | cons d1 rest ih =>
    intro d0 hpw
    obtain ⟨hhead, htail⟩ := List.pairwise_cons.mp hpw
    have h01 : d0 > d1 := hhead d1 (List.mem_cons_self _ _)
    have hall1 : ∀ x ∈ rest, d1 > x :=
      fun x hx => (List.pairwise_cons.mp htail).1 x hx
    by_cases hd : d1 = d0 - 1
    · have hrun : streakRun d0 (d1 :: rest) = 1 + streakRun d1 rest := by
        simp [streakRun, hd]
      obtain ⟨ih1, ih2⟩ := ih d1 htail
      constructor
      · intro j hj1 hj2
        rw [hrun] at hj2
        rcases eq_or_lt_of_le hj1 with heq | hlt
        · have hj : (d0 - (j : ℤ)) = d1 := by omega
          rw [hj]
          exact List.mem_cons_of_mem _ (List.mem_cons_self _ _)
        · have hmem := ih1 (j - 1) (by omega) (by omega)
          have hj : (d0 - (j : ℤ)) = d1 - ((j - 1 : ℕ) : ℤ) := by omega
          rw [hj]
          exact List.mem_cons_of_mem _ hmem
      · rw [hrun]
        intro hmem
        have hj : (d0 - ((1 + streakRun d1 rest + 1 : ℕ) : ℤ)) =
            d1 - ((streakRun d1 rest + 1 : ℕ) : ℤ) := by omega
        rw [hj] at hmem
        rcases List.mem_cons.mp hmem with h | h
        · omega
        · exact ih2 h
    · have hrun : streakRun d0 (d1 :: rest) = 0 := by
        simp [streakRun, hd]
      constructor
      · intro j hj1 hj2
        rw [hrun] at hj2
        omega
      · rw [hrun]
        intro hmem
        rcases List.mem_cons.mp hmem with h | hmem1
        · omega
        rcases List.mem_cons.mp hmem1 with h | h
        · exact hd (by omega)
        · have := hall1 _ h
          omega

/-- The sorted deduplicated date list is strictly descending and has the
same members as the original list. -/
lemma sorted_dates (l : List Int) :
    (List.insertionSort (fun a b : Int => a ≥ b) l.dedup).Pairwise
      (fun a b : Int => a > b) ∧
    ∀ x, (x ∈ List.insertionSort (fun a b : Int => a ≥ b) l.dedup ↔ x ∈ l) := by
  have hperm : List.Perm (List.insertionSort (· ≥ ·) l.dedup) l.dedup :=
    List.perm_insertionSort _ _
  have hsorted : List.Sorted (· ≥ ·) (List.insertionSort (· ≥ ·) l.dedup) :=
    List.sorted_insertionSort _ _
  have hnodup : (List.insertionSort (· ≥ ·) l.dedup).Nodup :=
    hperm.nodup_iff.mpr (List.nodup_dedup l)
  constructor
  · exact (List.Pairwise.and hsorted hnodup).imp
      fun hab => lt_of_le_of_ne hab.1 (Ne.symm hab.2)
  · intro x
    rw [hperm.mem_iff, List.mem_dedup]

/-- The head of the strictly descending date list is the maximum date. -/
lemma head_is_max (d0 : Int) (rest : List Int) (D : Finset Int)
    (hpw : (d0 :: rest).Pairwise (· > ·))
    (hmem : ∀ x, x ∈ d0 :: rest ↔ x ∈ D) (hne : D.Nonempty) :
    D.max' hne = d0 := by
  apply le_antisymm
  · apply Finset.max'_le
    intro y hy
    rcases List.mem_cons.mp ((hmem y).mpr hy) with h | h
    · exact le_of_eq h
    · exact le_of_lt ((List.pairwise_cons.mp hpw).1 y h)
  · exact Finset.le_max' D d0 ((hmem d0).mp (List.mem_cons_self _ _))

/-- The streak count is bounded by the number of distinct dates. -/
lemma streakRun_le_card (d0 : Int) (rest : List Int) (D : Finset Int)
    (hpw : (d0 :: rest).Pairwise (· > ·))
    (hmem : ∀ x, x ∈ d0 :: rest ↔ x ∈ D) :
    streakRun d0 rest + 1 ≤ D.card := by
  classical
  obtain ⟨hP, -⟩ := streakRun_char rest d0 hpw
  have hsub : (Finset.range (streakRun d0 rest + 1)).image
      (fun j : ℕ => d0 - (j : ℤ)) ⊆ D := by
    intro x hx
    obtain ⟨j, hj, rfl⟩ := Finset.mem_image.mp hx
    rcases Nat.eq_zero_or_pos j with h0 | hpos
    · subst h0
      simp only [Nat.cast_zero, sub_zero]
      exact (hmem d0).mp (List.mem_cons_self _ _)
    · have hjle : j ≤ streakRun d0 rest := by
        have := Finset.mem_range.mp hj
        omega
      exact (hmem _).mp (hP j hpos hjle)
  have hcard : ((Finset.range (streakRun d0 rest + 1)).image
      (fun j : ℕ => d0 - (j : ℤ))).card = streakRun d0 rest + 1 := by
    rw [Finset.card_image_of_injective _ ?inj, Finset.card_range]
    case inj =>
      intro a b hab
      simp only at hab
      omega
  calc streakRun d0 rest + 1 = _ := hcard.symm
    _ ≤ D.card := Finset.card_le_card hsub

/-- The streak loop computes the greatest run of consecutive prior days
present in the date set. -/
lemma streakRun_eq_findGreatest (d0 : Int) (rest : List Int) (D : Finset Int)
    (hpw : (d0 :: rest).Pairwise (· > ·))
    (hmem : ∀ x, x ∈ d0 :: rest ↔ x ∈ D) :
    Nat.findGreatest (fun k => ∀ j ∈ Finset.Icc 1 k, (d0 - (j : ℤ)) ∈ D) D.card
      = streakRun d0 rest := by
  classical
  obtain ⟨hP, hnot⟩ := streakRun_char rest d0 hpw
  rw [Nat.findGreatest_eq_iff]
  refine ⟨?_, ?_, ?_⟩
  · have := streakRun_le_card d0 rest D hpw hmem
    omega
  · intro _ j hj
    rw [Finset.mem_Icc] at hj
    exact (hmem _).mp (hP j hj.1 hj.2)
  · intro n hlt hle hPn
    exact hnot ((hmem _).mpr
      (hPn (streakRun d0 rest + 1) (Finset.mem_Icc.mpr ⟨by omega, by omega⟩)))

/-- C4: `calc_streak` is 0 when no calendar date has a log; 0 when the most
recent date with a log is more than one day before today; and otherwise 1
plus the greatest number of consecutive prior calendar days present in the
date set, stopping at the first gap. -/
theorem calc_streak_spec (logs : List LogEntry) (today : Int) :
    ((logs.map logDate).toFinset = ∅ → calc_streak logs today = 0) ∧
    (∀ hne : (logs.map logDate).toFinset.Nonempty,
      ((logs.map logDate).toFinset.max' hne < today - 1 →
        calc_streak logs today = 0) ∧
      (today - 1 ≤ (logs.map logDate).toFinset.max' hne →
        calc_streak logs today =
          1 + Nat.findGreatest
            (fun k => ∀ j ∈ Finset.Icc 1 k,
              ((logs.map logDate).toFinset.max' hne - (j : ℤ)) ∈
                (logs.map logDate).toFinset)
            (logs.map logDate).toFinset.card)) := by
  classical
  constructor
  · intro h
    have hnil : logs = [] := by
      cases logs with
      | nil => rfl
      | cons a b => simp at h
    subst hnil
    rfl
  · intro hne
    have hlogs : logs ≠ [] := by
      rintro rfl
      simp at hne
    have hempty : logs.isEmpty = false := by
      cases logs with
      | nil => exact absurd rfl hlogs
      | cons a b => rfl
    obtain ⟨d0, rest, hL⟩ : ∃ d0 rest,
        List.insertionSort (· ≥ ·) (logs.map logDate).dedup = d0 :: rest := by
      cases hs : List.insertionSort (· ≥ ·) (logs.map logDate).dedup with
      | nil =>
        exfalso
        have hlen := List.length_insertionSort (· ≥ ·) (logs.map logDate).dedup
        rw [hs] at hlen
        have hdnil : (logs.map logDate).dedup = [] :=
          List.length_eq_zero.mp hlen.symm
        rw [List.dedup_eq_nil, List.map_eq_nil_iff] at hdnil
        exact hlogs hdnil
      | cons a b => exact ⟨a, b, rfl⟩
    have hpw : (d0 :: rest).Pairwise (· > ·) := hL ▸ (sorted_dates _).1
    have hmem : ∀ x, x ∈ d0 :: rest ↔ x ∈ (logs.map logDate).toFinset := by
      intro x
      rw [← hL, (sorted_dates _).2 x, List.mem_toFinset]
    have hd0 : (logs.map logDate).toFinset.max' hne = d0 :=
      head_is_max d0 rest _ hpw hmem hne
    have hunf : calc_streak logs today =
        if d0 < today - 1 then 0 else 1 + streakRun d0 rest := by
      unfold calc_streak
      rw [hempty, hL]
      rfl
    rw [hd0]
    constructor
    · intro hlt
      rw [hunf, if_pos hlt]
    · intro hge
      rw [hunf, if_neg (by omega),
        streakRun_eq_findGreatest d0 rest _ hpw hmem]

/-- Witness for C4: logs on three consecutive days ending today give streak
3; a single log three days back gives 0; no logs give 0. -/
theorem calc_streak_spec_witness :
    calc_streak demoLogs 100 = 3 ∧ calc_streak staleLogs 100 = 0 ∧
    calc_streak [] 100 = 0 := by
  refine ⟨?_, ?_, ?_⟩
  · have h := (calc_streak_spec demoLogs 100).2 (by decide)
    rw [h.2 (by decide)]
    decide
  · have h := (calc_streak_spec staleLogs 100).2 (by decide)
    exact h.1 (by decide)
  · exact (calc_streak_spec [] 100).1 (by decide)

end Resolutions
